import Mathlib

/-!
Verification development for `minimotif_scripts/detection_pwm.py`
(MiniMotif): PWM-based transcription-factor binding-site detection.

The Python functions are shallowly embedded: Python `float` scores are
modelled as `ℚ`, DNA sequences as `List Char`, fallible operations return
`Option`. Definitions keep the source's names where possible.
-/

namespace MiniMotif

/-- Embeds `get_sequence_gc_content` (detection_pwm.py:36-41):
`Counter` count of `'G'` plus `'C'` divided by the sequence length.
Python raises `ZeroDivisionError` on an empty sequence; the embedding
returns `none` in that case. -/
def get_sequence_gc_content (sequence : List Char) : Option ℚ :=
  if sequence.length = 0 then none
  else some (((sequence.count 'G' + sequence.count 'C' : ℕ) : ℚ) / (sequence.length : ℚ))

/-- Embeds `get_bg_distribution` (detection_pwm.py:44-53): halves the GC
fraction, sets the AT half to `0.5` minus it, and returns the four values
in (A, C, G, T) order. The Python function joins them into a string for
the MOODS command line; the embedding keeps the 4-tuple of values. -/
def get_bg_distribution (sequence : List Char) : Option (ℚ × ℚ × ℚ × ℚ) :=
  match get_sequence_gc_content sequence with
  | none => none
  | some gc =>
    let gc_percentage := gc / 2
    let at_percentage := 1/2 - gc_percentage
    some (at_percentage, gc_percentage, gc_percentage, at_percentage)

/-- Embeds `set_confidence` (detection_pwm.py:131-141). `thresholds` is the
pair built by `set_threshold`: `.1` = `thresholds[0]` (the maximal PWM
score), `.2` = `thresholds[1]` (the strict threshold). -/
def set_confidence (score : ℚ) (thresholds : ℚ × ℚ) : String :=
  let med_str_thres := (thresholds.2 + thresholds.1) / 2
  if score ≤ thresholds.2 then "weak"
  else if med_str_thres ≤ score then "strong"
  else "medium"

/-- One column of a position weight matrix: the scores of the four bases
A, C, G, T at one motif position. -/
structure Col where
  a : ℚ
  c : ℚ
  g : ℚ
  t : ℚ
deriving DecidableEq

/-- Maximum of the four base scores of a column (`pwm.max()` per column). -/
def colMax (col : Col) : ℚ := max col.a (max col.c (max col.g col.t))

/-- One iteration of the `for val in ...` loop of `set_threshold`
(detection_pwm.py:148-150). In Python `strict_threshold` starts as the
int `0`; the first time a per-position maximum `val` reaches 1.9,
`strict_threshold + val` rebinds it to a one-element numpy array (`0 +
val`), and later additions stay arrays. The accumulator is modelled as
`Option ℚ`: `none` is the never-rebound int `0`, `some x` the array
holding `x`. -/
def strict_step (acc : Option ℚ) (col : Col) : Option ℚ :=
  if (19 : ℚ)/10 ≤ colMax col then
    match acc with
    | none => some (0 + colMax col)
    | some x => some (x + colMax col)
  else acc

/-- Embeds `set_threshold` (detection_pwm.py:144-151): the sum of the
per-position maxima, paired with the accumulated strict threshold. The
final Python expression `strict_threshold[0]` subscripts the accumulator:
when no per-position maximum reached 1.9 it is still the int `0`, which
is not subscriptable, so the function raises `TypeError` instead of
returning — embedded as result `none`. -/
def set_threshold (pwm : List Col) : Option (ℚ × ℚ) :=
  let max_pwm := pwm.foldl (fun acc col => acc + colMax col) 0
  match pwm.foldl strict_step none with
  | none => none
  | some s => some (max_pwm, s)

/-- Spec-side definition (spec.md §4.2 `tierBoundaries`): "`maxScore` = sum
over positions of the maximum score among the four bases at that position".
Stated from the spec's words, to be compared with `set_threshold`. -/
def specMaxScore (pwm : List Col) : ℚ := (pwm.map colMax).sum

/-- Spec-side definition (spec.md §4.2 `tierBoundaries`): "`strictBoundary`
= sum, over positions, of that same per-position maximum only when it is
≥ 1.9, else contributes nothing at that position". Stated from the spec's
words, to be compared with `set_threshold`. -/
def specStrictBoundary (pwm : List Col) : ℚ :=
  ((pwm.map colMax).filter (fun v => (19 : ℚ)/10 ≤ v)).sum

/-- Ordinal rank of a confidence tier, for the ordering weak < medium <
strong used by the monotonicity property. -/
def tierRank (tier : String) : ℕ :=
  if tier = "weak" then 0
  else if tier = "medium" then 1
  else if tier = "strong" then 2
  else 3

/-- A position-specific scoring matrix: one `Col` per motif position.
`cols.length` plays the role of `len(pssm)` in the Python code. -/
structure ScoringMatrix where
  cols : List Col
deriving DecidableEq

/-- Complement of one column: A↔T and C↔G scores swapped. -/
def Col.revComp (col : Col) : Col := ⟨col.t, col.g, col.c, col.a⟩

/-- Reverse complement of a scoring matrix (spec.md §3: "reversing position
order and swapping A↔T, C↔G"); embeds `pssm.reverse_complement()`
(detection_pwm.py:168). -/
def ScoringMatrix.reverse_complement (m : ScoringMatrix) : ScoringMatrix :=
  ⟨(m.cols.map Col.revComp).reverse⟩

/-- Watson-Crick complement of one base; bases other than upper-case
A, C, G, T are left unchanged. -/
def complement_base (ch : Char) : Char :=
  if ch = 'A' then 'T'
  else if ch = 'T' then 'A'
  else if ch = 'C' then 'G'
  else if ch = 'G' then 'C'
  else ch

/-- Reverse complement of a DNA sequence; embeds Biopython's
`Seq.reverse_complement()` as used at detection_pwm.py:214. -/
def reverse_complement (s : List Char) : List Char :=
  (s.map complement_base).reverse

/-- Modelled from the spec: the per-base column lookup of the external
`lightmotif` scanner (spec.md §4.3). A base outside A, C, G, T scores
"negative infinity", embedded as `none`. -/
def baseScore (col : Col) (ch : Char) : Option ℚ :=
  if ch = 'A' then some col.a
  else if ch = 'C' then some col.c
  else if ch = 'G' then some col.g
  else if ch = 'T' then some col.t
  else none

/-- Modelled from the spec: the score of the width-`W` window of `s` at
offset `i` (spec.md §4.3): the sum of per-position scores, `none` when the
window does not fit or holds a non-ACGT symbol. -/
def windowScore (m : ScoringMatrix) (s : List Char) (i : ℕ) : Option ℚ :=
  let w := (s.drop i).take m.cols.length
  if w.length = m.cols.length then
    (m.cols.zip w).foldl
      (fun acc p =>
        match acc, baseScore p.1 p.2 with
        | some x, some y => some (x + y)
        | _, _ => none)
      (some 0)
  else none

/-- Modelled from the spec: the external scanner's
`pssm.calculate(...).threshold(thr)` (spec.md §4.3): every offset at which
a full-width window fits and scores at least `thr`, with its score, in
ascending offset order. -/
def scanHits (m : ScoringMatrix) (s : List Char) (thr : ℚ) : List (ℕ × ℚ) :=
  (List.range (s.length + 1 - m.cols.length)).filterMap
    (fun i =>
      match windowScore m s i with
      | some sc => if thr ≤ sc then some (i, sc) else none
      | none => none)

/-- Numeric value of a non-empty string of decimal digits (Python `int`). -/
def digitsToNat (cs : List Char) : ℕ :=
  cs.foldl (fun n c => 10 * n + (c.toNat - '0'.toNat)) 0

/-- One attempt of the header regular expression
`([^~]*)~([0-9]+):([0-9]+)~(.*)` (detection_pwm.py:166) anchored at the
start of `cs`: the `~`-free prefix, then `~`, a non-empty digit run, `:`,
a non-empty digit run, `~`, and the rest. -/
def matchHeaderAt (cs : List Char) : Option (String × ℕ × ℕ × String) :=
  let a := cs.takeWhile (fun c => c ≠ '~')
  match cs.drop a.length with
  | '~' :: r2 =>
    let d1 := r2.takeWhile Char.isDigit
    if d1.isEmpty then none
    else
      match r2.drop d1.length with
      | ':' :: r3 =>
        let d2 := r3.takeWhile Char.isDigit
        if d2.isEmpty then none
        else
          match r3.drop d2.length with
          | '~' :: r4 => some (a.asString, digitsToNat d1, digitsToNat d2, r4.asString)
          | _ => none
      | _ => none
  | _ => none

/-- `re.search` semantics for the header pattern: the match at the
leftmost start position that succeeds, scanning left to right. -/
def searchHeader : List Char → Option (String × ℕ × ℕ × String)
  | [] => none
  | c :: cs =>
    match matchHeaderAt (c :: cs) with
    | some r => some r
    | none => searchHeader cs

/-- Embeds `header_rx.search(record.id).groups()` (detection_pwm.py:166,
193): the four groups (region, start, end, extra) of the leftmost match,
`none` when the pattern does not occur (Python: `search` returns `None`
and `.groups()` raises `AttributeError`). -/
def parseHeader (s : String) : Option (String × ℕ × ℕ × String) :=
  searchHeader s.toList

/-- Embeds the region-disambiguation block of `run_lightmotif`
(detection_pwm.py:202-210): when the region name holds exactly one hyphen
it is split into two gene names and the hit is assigned to the first gene
when its absolute start lies at or before the midpoint of the
`start_`..`end_` interval, to the second gene otherwise. -/
def resolveRegion (region_ : String) (start_ end_ : ℕ) (start : ℕ) : String :=
  if region_.toList.count '-' = 1 then
    let first_gene := (region_.toList.takeWhile (fun c => c ≠ '-')).asString
    let second_gene :=
      (region_.toList.drop ((region_.toList.takeWhile (fun c => c ≠ '-')).length + 1)).asString
    let range_region : ℚ := ((end_ : ℚ) - (start_ : ℚ)) / 2 + (start_ : ℚ)
    if (start : ℚ) ≤ range_region then first_gene else second_gene
  else region_

/-- Coordinate resolution of one hit, as composed by `run_lightmotif`
(detection_pwm.py:193-210): parse the header, add the local offset to the
region start, add the motif width for the end, and disambiguate the
region name. -/
def resolveHit (header : String) (i W : ℕ) : Option (ℕ × ℕ × String) :=
  match parseHeader header with
  | none => none
  | some (region_, start_, end_, _) =>
    some (start_ + i, start_ + i + W, resolveRegion region_ start_ end_ (start_ + i))

/-- One recorded hit, mirroring the five-element list appended at
detection_pwm.py:216-222 (the `start:end` location split into its two
numbers). -/
structure Match where
  locStart : ℕ
  locEnd : ℕ
  strand : Char
  score : ℚ
  conf : String
  seq : List Char
deriving DecidableEq

/-- One FASTA record as `run_lightmotif` consumes it: its id (header) and
its sequence. -/
structure SeqRecord where
  id : String
  seq : List Char
deriving DecidableEq

/-- The `itertools.chain` at detection_pwm.py:187-190: forward-strand hits
tagged `'+'` followed by reverse-strand hits tagged `'-'`. -/
def recordHits (pssm : ScoringMatrix) (thr : ℚ) (s : List Char) : List (ℕ × ℚ × Char) :=
  (scanHits pssm s thr).map (fun h => (h.1, h.2, '+'))
    ++ (scanHits pssm.reverse_complement s thr).map (fun h => (h.1, h.2, '-'))

/-- The body of the `for i, strand in indices` loop of `run_lightmotif`
(detection_pwm.py:196-222): one hit `(offset, score, strand)` becomes a
`(resolved region, Match)` pair; the reverse strand's matched subsequence
is the reverse complement of the forward window. -/
def buildMatch (pssm : ScoringMatrix) (thresholds : ℚ × ℚ)
    (region_ : String) (start_ end_ : ℕ) (s : List Char) (h : ℕ × ℚ × Char) :
    String × Match :=
  let start := start_ + h.1
  let stop := start + pssm.cols.length
  let region := resolveRegion region_ start_ end_ start
  let w := (s.drop h.1).take pssm.cols.length
  let sq := if h.2.2 = '-' then reverse_complement w else w
  (region, ⟨start, stop, h.2.2, h.2.1, set_confidence h.2.1 thresholds, sq⟩)

/-- The per-record loop of `run_lightmotif` (detection_pwm.py:196-222):
every chained hit, forward strand first, through `buildMatch`. -/
def recordMatches (pssm : ScoringMatrix) (thr : ℚ) (thresholds : ℚ × ℚ)
    (region_ : String) (start_ end_ : ℕ) (s : List Char) : List (String × Match) :=
  (recordHits pssm thr s).map (buildMatch pssm thresholds region_ start_ end_ s)

/-- Embeds `run_lightmotif` (detection_pwm.py:164-224) over a list of
records, producing the flat list of `(resolved region, Match)` pairs in
scan order (the `defaultdict` groups them by region for output; per-region
lists are the by-region sublists of this flat list). A record with an
empty sequence is skipped; a record whose header does not match the
pattern makes the whole call fail (`none`), as the uncaught
`AttributeError` does in Python. -/
def run_lightmotif (pssm : ScoringMatrix) (thr : ℚ) (thresholds : ℚ × ℚ) :
    List SeqRecord → Option (List (String × Match))
  | [] => some []
  | r :: rest =>
    if r.seq = [] then run_lightmotif pssm thr thresholds rest
    else
      match parseHeader r.id with
      | none => none
      | some (region_, start_, end_, _) =>
        match run_lightmotif pssm thr thresholds rest with
        | none => none
        | some l => some (recordMatches pssm thr thresholds region_ start_ end_ r.seq ++ l)

/-- A one-column scoring matrix with every base scoring 1, used as a
concrete input for closed evaluations. -/
def onePSSM : ScoringMatrix := ⟨[⟨1, 1, 1, 1⟩]⟩

/-- A concrete reverse-strand match produced by `recordMatches` on
`onePSSM` and the sequence `['A']`. -/
def sampleRevMatch : Match := ⟨0, 1, '-', 1, "strong", ['T']⟩

/-! ## Helper lemmas -/

/-- Folding `acc + colMax col` over a list sums the per-column maxima. -/
theorem foldl_add_colMax (l : List Col) (x : ℚ) :
    l.foldl (fun acc col => acc + colMax col) x = x + (l.map colMax).sum := by
  induction l generalizing x with
  | nil => simp
  | cons c t ih => simp [ih, add_assoc]

/-- Once the strict accumulator has been rebound to an array (`some x`),
the rest of the loop adds exactly the qualifying per-column maxima. -/
theorem foldl_strict_some (l : List Col) (x : ℚ) :
    l.foldl strict_step (some x)
      = some (x + ((l.map colMax).filter (fun v => (19 : ℚ)/10 ≤ v)).sum) := by
  induction l generalizing x with
  | nil => simp
  | cons c t ih =>
    by_cases h : (19 : ℚ)/10 ≤ colMax c
    · simp [strict_step, h, ih, add_assoc]
    · simp [strict_step, h, ih]

/-- When some column's maximum reaches 1.9, the strict loop run from the
initial int `0` ends on an array holding the sum of the qualifying
per-column maxima. -/
theorem foldl_strict_none_of_mem (l : List Col)
    (hex : ∃ col ∈ l, (19 : ℚ)/10 ≤ colMax col) :
    l.foldl strict_step none
      = some (((l.map colMax).filter (fun v => (19 : ℚ)/10 ≤ v)).sum) := by
  induction l with
  | nil => simp at hex
  | cons c t ih =>
    by_cases h : (19 : ℚ)/10 ≤ colMax c
    · rw [List.foldl_cons]
      have hstep : strict_step none c = some (0 + colMax c) := by simp [strict_step, h]
      rw [hstep, foldl_strict_some]
      simp [h, add_assoc]
    · obtain ⟨col, hcol, hq⟩ := hex
      rcases List.mem_cons.1 hcol with rfl | hmem
      · exact absurd hq h
      · rw [List.foldl_cons]
        have hstep : strict_step none c = none := by simp [strict_step, h]
        rw [hstep, ih ⟨col, hmem, hq⟩]
        simp [h]

/-! ## Claim theorems -/

/-- C2: for every finite score and threshold pair `(maxScore,
strictBoundary)`, `set_confidence` classifies the score as weak when
`score ≤ strictBoundary`, as strong when it is not weak and
`score ≥ (strictBoundary + maxScore)/2`, and as medium otherwise; the
weak check takes precedence. -/
theorem set_confidence_rule (score maxScore strictBoundary : ℚ) :
    (score ≤ strictBoundary →
      set_confidence score (maxScore, strictBoundary) = "weak")
    ∧ (¬ score ≤ strictBoundary → (strictBoundary + maxScore)/2 ≤ score →
      set_confidence score (maxScore, strictBoundary) = "strong")
    ∧ (¬ score ≤ strictBoundary → ¬ (strictBoundary + maxScore)/2 ≤ score →
      set_confidence score (maxScore, strictBoundary) = "medium") := by
  refine ⟨fun h1 => ?_, fun h1 h2 => ?_, fun h1 h2 => ?_⟩
  · simp [set_confidence, h1]
  · simp [set_confidence, h1, h2]
  · simp [set_confidence, h1, h2]

/-- C2 witness: the three tiers realized at concrete scores with
thresholds `(10, 2)` (midpoint 6). -/
theorem set_confidence_rule_witness :
    set_confidence 1 (10, 2) = "weak"
    ∧ set_confidence 7 (10, 2) = "strong"
    ∧ set_confidence 3 (10, 2) = "medium" :=
  ⟨(set_confidence_rule 1 10 2).1 (by norm_num),
   (set_confidence_rule 7 10 2).2.1 (by norm_num) (by norm_num),
   (set_confidence_rule 3 10 2).2.2 (by norm_num) (by norm_num)⟩

/-- C3: on the all-ones column no per-position maximum reaches 1.9, so
`set_threshold` fails (Python: `strict_threshold` is still the
unsubscriptable int `0` and `strict_threshold[0]` raises `TypeError`)
instead of returning a zero strict boundary as the claim states; on every
matrix where at least one per-position maximum reaches 1.9 the function
returns exactly the spec's pair — the sum of the per-position maxima and
that sum restricted to the positions at or above 1.9 — as the concrete
column with maximum 2 illustrates. -/
theorem set_threshold_strict_crash :
    set_threshold [⟨1, 1, 1, 1⟩] = none
    ∧ set_threshold [⟨2, 0, 0, 0⟩] = some (2, 2)
    ∧ (∀ pwm : List Col, (∃ col ∈ pwm, (19 : ℚ)/10 ≤ colMax col) →
        set_threshold pwm = some (specMaxScore pwm, specStrictBoundary pwm)) := by
  refine ⟨by with_unfolding_all decide, by with_unfolding_all decide, fun pwm hex => ?_⟩
  simp only [set_threshold, foldl_strict_none_of_mem pwm hex, foldl_add_colMax]
  simp [specMaxScore, specStrictBoundary]

/-- C4: for every fixed threshold pair, `set_confidence` returns one of
the three labels weak, medium, strong, and is monotonically
non-decreasing in the score under the ordering weak < medium < strong. -/
theorem set_confidence_total_monotone (thresholds : ℚ × ℚ) (s1 s2 : ℚ) :
    (set_confidence s1 thresholds = "weak"
      ∨ set_confidence s1 thresholds = "medium"
      ∨ set_confidence s1 thresholds = "strong")
    ∧ (s1 ≤ s2 →
      tierRank (set_confidence s1 thresholds) ≤ tierRank (set_confidence s2 thresholds)) := by
  constructor
  · simp only [set_confidence]
    split_ifs <;> simp
  · intro h12
    simp only [set_confidence]
    split_ifs <;> first | decide | linarith

/-- C4 witness: monotonicity realized at the concrete scores 1 ≤ 7 with
thresholds `(10, 2)`. -/
theorem set_confidence_total_monotone_witness :
    tierRank (set_confidence 1 (10, 2)) ≤ tierRank (set_confidence 7 (10, 2)) :=
  (set_confidence_total_monotone (10, 2) 1 7).2 (by norm_num)

/-- C6: deriving the background distribution from a zero-length sequence
fails (Python: `ZeroDivisionError` inside `get_sequence_gc_content`; the
spec names this failure `EmptySequenceError`). -/
theorem get_bg_distribution_empty (s : List Char) (h : s.length = 0) :
    get_bg_distribution s = none := by
  have hs : s = [] := List.length_eq_zero.mp h
  subst hs
  rfl

/-- C6 witness: the failure at the concrete empty sequence. -/
theorem get_bg_distribution_empty_witness : get_bg_distribution [] = none :=
  get_bg_distribution_empty [] rfl

/-- C7: for every sequence on which the GC content is defined (exactly
the non-empty ones), the background distribution is
`(1/2 - g/2, g/2, g/2, 1/2 - g/2)` in (A, C, G, T) order where `g` is the
GC fraction; in particular `"GCGC"` has GC content 1 and background
`(0, 1/2, 1/2, 0)`. -/
theorem get_bg_distribution_formula :
    (∀ (s : List Char) (g : ℚ), get_sequence_gc_content s = some g →
      get_bg_distribution s = some (1/2 - g/2, g/2, g/2, 1/2 - g/2))
    ∧ (∀ s : List Char, s.length ≠ 0 → (get_sequence_gc_content s).isSome = true)
    ∧ get_sequence_gc_content "GCGC".toList = some 1
    ∧ get_bg_distribution "GCGC".toList = some (0, 1/2, 1/2, 0) := by
  refine ⟨fun s g hg => ?_, fun s h => ?_, ?_, ?_⟩
  · simp [get_bg_distribution, hg]
  · simp [get_sequence_gc_content, h]
  · with_unfolding_all decide
  · with_unfolding_all decide

/-- C1: for every header whose parse yields a region with exactly one
hyphen, a hit at local offset `i` with motif width `W` resolves to
absolute start `start + i`, absolute end `start + i + W`, and is assigned
to the first gene when the absolute start is at most
`start + (end - start)/2`, to the second gene otherwise; in particular
the header `"geneA-geneB~100:200~x"` with width 6 resolves offset 10 to
`(110, 116, "geneA")` and offset 60 to `(160, 166, "geneB")`. -/
theorem resolveHit_gene_pair :
    (∀ (header region_ extra_ first_gene second_gene : String) (start_ end_ i W : ℕ),
      parseHeader header = some (region_, start_, end_, extra_) →
      region_.toList.count '-' = 1 →
      first_gene = (region_.toList.takeWhile (fun c => c ≠ '-')).asString →
      second_gene =
        (region_.toList.drop ((region_.toList.takeWhile (fun c => c ≠ '-')).length + 1)).asString →
      resolveHit header i W =
        some (start_ + i, start_ + i + W,
          if ((start_ + i : ℕ) : ℚ) ≤ (start_ : ℚ) + ((end_ : ℚ) - (start_ : ℚ))/2
          then first_gene else second_gene))
    ∧ resolveHit "geneA-geneB~100:200~x" 10 6 = some (110, 116, "geneA")
    ∧ resolveHit "geneA-geneB~100:200~x" 60 6 = some (160, 166, "geneB") := by
  refine ⟨?_, ?_, ?_⟩
  · intro header region_ extra_ first_gene second_gene start_ end_ i W hp hc hf hs
    subst hf hs
    simp only [resolveHit, hp, resolveRegion, hc, if_true]
    refine congrArg some (congrArg _ (congrArg _ (if_congr ?_ rfl rfl)))
    constructor <;> intro h <;> linarith
  · with_unfolding_all decide
  · with_unfolding_all decide

/-- C1 witness: the general statement applied to the concrete header
`"geneA-geneB~100:200~x"` at offset 60 with width 6. -/
theorem resolveHit_gene_pair_witness :
    resolveHit "geneA-geneB~100:200~x" 60 6 =
      some (160, 166,
        if ((100 + 60 : ℕ) : ℚ) ≤ (100 : ℚ) + ((200 : ℚ) - (100 : ℚ))/2
        then "geneA" else "geneB" ) :=
  resolveHit_gene_pair.1 "geneA-geneB~100:200~x" "geneA-geneB" "x" "geneA" "geneB"
    100 200 60 6 (by decide) (by decide) (by decide) (by decide)

/-- C5: a record whose header lacks the three `~`-delimited fields makes
the header parse fail, and `run_lightmotif` then aborts the whole batch
(the Python code raises an uncaught `AttributeError`), discarding the
matches of the remaining well-formed records instead of skipping the bad
record: with the bad record present the scan returns nothing, without it
the same well-formed record yields two matches. -/
theorem run_lightmotif_malformed_header_aborts :
    parseHeader "badheader" = none
    ∧ run_lightmotif onePSSM 0 (0, 0) [⟨"badheader", ['A']⟩, ⟨"geneA~0:4~x", ['A']⟩] = none
    ∧ run_lightmotif onePSSM 0 (0, 0) [⟨"geneA~0:4~x", ['A']⟩] =
        some [("geneA", ⟨0, 1, '+', 1, "strong", ['A']⟩),
              ("geneA", ⟨0, 1, '-', 1, "strong", ['T']⟩)] := by
  refine ⟨?_, ?_, ?_⟩
  · decide
  · with_unfolding_all decide
  · with_unfolding_all decide

/-- C8: every match recorded by the per-record loop of `run_lightmotif`
carries, as its matched subsequence, the forward-strand window of the
record's sequence at the hit offset when the strand is `'+'`, and the
reverse complement of that window when the strand is `'-'`. -/
theorem recordMatches_seq_field (pssm : ScoringMatrix) (thr : ℚ) (thresholds : ℚ × ℚ)
    (region_ : String) (start_ end_ : ℕ) (s : List Char) (rg : String) (m : Match)
    (hm : (rg, m) ∈ recordMatches pssm thr thresholds region_ start_ end_ s) :
    start_ ≤ m.locStart
    ∧ (m.strand = '-' →
      m.seq = reverse_complement ((s.drop (m.locStart - start_)).take pssm.cols.length))
    ∧ (m.strand ≠ '-' →
      m.seq = (s.drop (m.locStart - start_)).take pssm.cols.length) := by
  simp only [recordMatches, List.mem_map] at hm
  obtain ⟨h, hmem, heq⟩ := hm
  injection heq with h1 h2
  subst h2
  refine ⟨Nat.le_add_right _ _, ?_, ?_⟩
  · intro hc
    have hc' : h.2.2 = '-' := hc
    simp [Nat.add_sub_cancel_left, hc']
  · intro hc
    have hc' : ¬ h.2.2 = '-' := hc
    simp [Nat.add_sub_cancel_left, hc']

/-- C8 witness: the reverse-strand match of `onePSSM` on the one-base
record `['A']` carries the reverse complement `['T']` of its window. -/
theorem recordMatches_seq_field_witness :
    (0 : ℕ) ≤ sampleRevMatch.locStart
    ∧ (sampleRevMatch.strand = '-' →
      sampleRevMatch.seq =
        reverse_complement ((['A'].drop (sampleRevMatch.locStart - 0)).take onePSSM.cols.length))
    ∧ (sampleRevMatch.strand ≠ '-' →
      sampleRevMatch.seq = (['A'].drop (sampleRevMatch.locStart - 0)).take onePSSM.cols.length) :=
  recordMatches_seq_field onePSSM 0 (0, 0) "r" 0 0 ['A'] "r" sampleRevMatch
    (by with_unfolding_all decide)

/-- C9: the per-record match list of `run_lightmotif` is the list of
forward-strand matches followed by the list of reverse-strand matches:
within one record, every `'+'` match is appended before every `'-'`
match. -/
theorem recordMatches_forward_then_reverse (pssm : ScoringMatrix) (thr : ℚ)
    (thresholds : ℚ × ℚ) (region_ : String) (start_ end_ : ℕ) (s : List Char) :
    ∃ f b, recordMatches pssm thr thresholds region_ start_ end_ s = f ++ b
      ∧ (∀ x ∈ f, (x : String × Match).2.strand = '+')
      ∧ (∀ x ∈ b, (x : String × Match).2.strand = '-') := by
  refine ⟨((scanHits pssm s thr).map (fun h => (h.1, h.2, '+'))).map
      (buildMatch pssm thresholds region_ start_ end_ s),
    ((scanHits pssm.reverse_complement s thr).map (fun h => (h.1, h.2, '-'))).map
      (buildMatch pssm thresholds region_ start_ end_ s), ?_, ?_, ?_⟩
  · simp [recordMatches, recordHits]
  · intro x hx
    simp only [List.mem_map] at hx
    obtain ⟨a, ha, rfl⟩ := hx
    obtain ⟨h0, -, rfl⟩ := ha
    rfl
  · intro x hx
    simp only [List.mem_map] at hx
    obtain ⟨a, ha, rfl⟩ := hx
    obtain ⟨h0, -, rfl⟩ := ha
    rfl

/-- C10: a record with an empty sequence is silently skipped by
`run_lightmotif`: deleting it from the batch changes nothing, so it
contributes no matches, raises no error, and leaves every other record's
matches unchanged. -/
theorem run_lightmotif_skips_empty_record (pssm : ScoringMatrix) (thr : ℚ)
    (thresholds : ℚ × ℚ) (pre post : List SeqRecord) (id_ : String) :
    run_lightmotif pssm thr thresholds (pre ++ ⟨id_, []⟩ :: post)
      = run_lightmotif pssm thr thresholds (pre ++ post) := by
  induction pre with
  | nil => simp [run_lightmotif]
  | cons r t ih =>
    by_cases hs : r.seq = []
    · simp [run_lightmotif, hs, ih]
    · cases hp : parseHeader r.id <;> simp [run_lightmotif, hs, hp, ih]

end MiniMotif
